import Mathlib

/-!
Verification of the ec2-deploy deployment pipeline (src/main.rs).

The development shallowly embeds the Rust program: the application
descriptor (`App`), the local filesystem as seen through the calls the
program makes (`Fs`: `is_file` / `is_dir` / `read` / `read_dir`), the
zip packaging loop (`packArtifact` / `packEntries`), the remote command
wrapper (`unwrap_command_stderr`), the activation step (entrypoint mode
vs docker-compose orchestration mode, `activation`), and the whole
`main` sequence as a trace-producing function (`run_pipeline`) over a
`World` recording the results of the external effects (build process,
remote commands, channel closes).

Bytes are modelled as `List Nat` (each element a `u8` value); UTF-8
decoding (`utf8Decode`, modelling Rust's `String::from_utf8`) is written
as a structurally recursive function so that it evaluates inside proofs.
A Rust `panic!` / `.expect(..)` abort is modelled by returning the
corresponding `PipelineError`.
-/

deriving instance DecidableEq for Except

namespace Ec2Deploy

/-- Model of Rust `str::split_whitespace` over the character list:
maximal runs of non-whitespace characters, in order, with no empty
tokens. `acc` holds the current (reversed) in-progress token. -/
def split_whitespace_aux : List Char → List Char → List String
  | [], acc => if acc.isEmpty then [] else [acc.reverse.asString]
  | c :: cs, acc =>
    if c.isWhitespace then
      if acc.isEmpty then split_whitespace_aux cs []
      else acc.reverse.asString :: split_whitespace_aux cs []
    else split_whitespace_aux cs (c :: acc)

/-- Rust `app.build_command.split_whitespace().collect::<Vec<_>>()`. -/
def split_whitespace (s : String) : List String :=
  split_whitespace_aux s.data []

/-- Split a character list on `/` (like `str::split('/')`): pieces
between separators, empty pieces included. -/
def split_slash_aux : List Char → List Char → List (List Char)
  | [], acc => [acc.reverse]
  | c :: cs, acc =>
    if c = '/' then acc.reverse :: split_slash_aux cs []
    else split_slash_aux cs (c :: acc)

def split_slash (l : List Char) : List (List Char) :=
  split_slash_aux l []

/-- Model of Rust `Path::file_name`: the last normal component of the
path. Empty components and `.` components are skipped (as Rust's
`Components` normalisation does); a path whose last component is `..`
(or that has no component at all) has no file name. -/
def file_name (s : String) : Option String :=
  let comps := (split_slash s.data).filter fun c => !(c = [] || c = ['.'])
  match comps.getLast? with
  | none => none
  | some c => if c = ['.', '.'] then none else some c.asString

/-- One byte of process / file content, a `u8` value. -/
abbrev Byte := Nat

/-- Is `b` a UTF-8 continuation byte (`0x80..=0xBF`)? -/
def utf8Cont (b : Byte) : Bool := 0x80 ≤ b && b < 0xC0

/-- UTF-8 decoding of a byte list, modelling Rust
`String::from_utf8` (which fails on any invalid, overlong or
surrogate-encoding sequence). Structurally recursive so it computes by
kernel reduction. -/
def utf8Decode : List Byte → Option (List Char)
  | [] => some []
  | b :: rest =>
    if b < 0x80 then
      (utf8Decode rest).map (Char.ofNat b :: ·)
    else if b < 0xC2 then
      none
    else if b < 0xE0 then
      match rest with
      | b1 :: rest2 =>
        if utf8Cont b1 then
          (utf8Decode rest2).map (Char.ofNat ((b - 0xC0) * 64 + (b1 - 0x80)) :: ·)
        else none
      | [] => none
    else if b < 0xF0 then
      match rest with
      | b1 :: b2 :: rest3 =>
        if utf8Cont b1 && utf8Cont b2 then
          let cp := (b - 0xE0) * 4096 + (b1 - 0x80) * 64 + (b2 - 0x80)
          if 0x800 ≤ cp && !(0xD800 ≤ cp && cp < 0xE000) then
            (utf8Decode rest3).map (Char.ofNat cp :: ·)
          else none
        else none
      | _ => none
    else if b < 0xF5 then
      match rest with
      | b1 :: b2 :: b3 :: rest4 =>
        if utf8Cont b1 && utf8Cont b2 && utf8Cont b3 then
          let cp := (b - 0xF0) * 262144 + (b1 - 0x80) * 4096 + (b2 - 0x80) * 64 + (b3 - 0x80)
          if 0x10000 ≤ cp && cp < 0x110000 then
            (utf8Decode rest4).map (Char.ofNat cp :: ·)
          else none
        else none
      | _ => none
    else none

/-- Rust `String::from_utf8(bytes)` as an `Option String`; `none`
models the `Err` case (whose `.unwrap()` would panic). -/
def decodeUtf8 (bytes : List Byte) : Option String :=
  (utf8Decode bytes).map List.asString

/-- The application descriptor parsed from `deploy.json` (struct `App`
in src/main.rs). -/
structure App where
  name : String
  host_path : String
  build_output_file : String
  build_command : String
  artifacts : List String
  entrypoint : Option String
deriving DecidableEq

/-- Rust `host_output_path`: `format!("{}/{}", app.host_path(),
build_output_file_path.file_name().unwrap()...)`. `none` models the
panic of the `.unwrap()` when the output file has no file name. -/
def host_output_path (app : App) : Option String :=
  (file_name app.build_output_file).map fun n => app.host_path ++ "/" ++ n

/-- A node of the local filesystem: a regular file with its bytes, or a
directory with its ordered direct children (name, node). Anything not
present is neither a file nor a directory (`is_file` and `is_dir` both
return false in Rust). -/
inductive FsNode
  | file (content : List Byte)
  | dir (children : List (String × FsNode))

/-- The local filesystem: a finite map from path strings to nodes.
`read(entry.path())` on a direct child of a directory resolves to the
child node carried inline by the parent (the program only ever reads a
directory's children right after listing them). -/
abbrev Fs := List (String × FsNode)

def FsNode.isFile : FsNode → Bool
  | .file _ => true
  | .dir _ => false

/-- The content of a file node (junk value `[]` on a directory; only
used under an `isFile` hypothesis). -/
def FsNode.contentD : FsNode → List Byte
  | .file c => c
  | .dir _ => []

/-- Rust `std::fs::read(p)` restricted to what the model records:
succeeds exactly on regular files. Reading a directory fails (as it
does on Unix), reading a missing path fails. -/
def read_file (fs : Fs) (p : String) : Option (List Byte) :=
  match fs.lookup p with
  | some (.file c) => some c
  | _ => none

/-- The packaging failure modes of the artifact loop (each is a Rust
`.expect(..)` panic site). -/
inductive PackError
  | artifactPath (p : String)
  | readArtifact (p : String)
deriving DecidableEq

/-- The directory branch of the artifact loop: for every entry of
`read_dir` (file or not), `start_file(entry.file_name())` is called and
then `read(entry.path())`; reading a non-file child fails, which the
surrounding `.expect` turns into an abort naming the child path. -/
def packDirChildren (parent : String) : List (String × FsNode) → Except PackError (List (String × List Byte))
  | [] => .ok []
  | (cname, .file content) :: rest =>
    (packDirChildren parent rest).map fun es => (cname, content) :: es
  | (cname, .dir _) :: rest =>
    let _ := rest
    .error (.readArtifact (parent ++ "/" ++ cname))

/-- One iteration of the artifact loop of `main`: compute
`path.file_name()` (panic if absent), then `if path.is_file()` write
one entry named by the base name, `if path.is_dir()` write one entry
per `read_dir` child; a path that is neither file nor directory falls
through both `if`s and contributes nothing. -/
def packArtifact (fs : Fs) (pathStr : String) : Except PackError (List (String × List Byte)) :=
  match file_name pathStr with
  | none => .error (.artifactPath pathStr)
  | some name =>
    match fs.lookup pathStr with
    | some (.file content) => .ok [(name, content)]
    | some (.dir children) => packDirChildren pathStr children
    | none => .ok []

/-- The whole packaging loop over `app.artifacts()`, collecting the
archive entries in order. -/
def packEntries (fs : Fs) : List String → Except PackError (List (String × List Byte))
  | [] => .ok []
  | p :: ps => do
    let es ← packArtifact fs p
    let rest ← packEntries fs ps
    .ok (es ++ rest)

/-- The output of a finished process (`openssh` / `std::process`
`Output`): exit status plus captured stdout and stderr bytes. -/
structure Output where
  status : Int
  stdout : List Byte
  stderr : List Byte
deriving DecidableEq

/-- Result of `command.output().await`: `ok` when the transport could
launch and await the command (whatever its exit status), `transportErr`
when it could not. -/
inductive CmdResult
  | ok (out : Output)
  | transportErr (msg : String)
deriving DecidableEq

/-- What a call to `unwrap_command_stderr` produces: a decoded stdout
on success, a decoded stderr as a command failure, a panic on transport
error, or a panic of a `String::from_utf8(..).unwrap()`. -/
inductive ExecResult
  | ok (stdout : String)
  | cmdErr (stderr : String)
  | fatalPanic (msg : String)
  | utf8Panic
deriving DecidableEq

/-- Rust `unwrap_command_stderr`: on `Ok(out)`, a non-empty stderr is
returned as `Err` with the decoded stderr text (the exit status is
never consulted), otherwise `Ok` with the decoded stdout; on `Err`
(transport failure) the function panics. -/
def unwrap_command_stderr : CmdResult → ExecResult
  | .transportErr err => .fatalPanic ("Error running command:\n" ++ err)
  | .ok out =>
    if out.stderr.length > 0 then
      match decodeUtf8 out.stderr with
      | some s => .cmdErr s
      | none => .utf8Panic
    else
      match decodeUtf8 out.stdout with
      | some s => .ok s
      | none => .utf8Panic

/-- The permission bits the program manipulates: `Permissions::new()`
starts with every bit unset, and the code sets exactly
`set_execute_by_owner(true)` and `set_execute_by_group(true)`; only
those two bits are ever touched, so the model records just them. -/
structure Permissions where
  execute_by_owner : Bool
  execute_by_group : Bool
deriving DecidableEq

/-- The permission value built in the entrypoint branch. -/
def exec_permissions : Permissions := ⟨true, true⟩

/-- The observable steps of one pipeline run, in execution order.
`connect` is the SSH session establishment, `sftpStart` the SFTP
subsystem spawn; `runBuild` records that the local build process ran
to completion (whatever it wrote on stderr); upload steps carry the
remote destination path. -/
inductive Step
  | connect
  | sftpStart
  | runBuild
  | createArchiveFile
  | package
  | remoteMkdir
  | uploadArchive (path : String)
  | remoteUnzip
  | uploadEntrypoint (path : String) (content : List Byte)
  | setPermissions (path : String) (perms : Permissions)
  | composeBuild
  | composeUp
  | closeChannels
deriving DecidableEq

/-- The abort sites of `main` (each is a `panic!` or `.expect(..)` in
the Rust source). -/
inductive PipelineError
  | hostOutputPathPanic
  | emptyBuildCommandPanic
  | buildError (stderr : String)
  | buildLaunchError (msg : String)
  | utf8Panic
  | packagingError (e : PackError)
  | remoteCommandError (which : String) (stderr : String)
  | transportPanic (msg : String)
  | entrypointReadPanic (path : String)
  | composeLaunchPanic (which : String) (msg : String)
deriving DecidableEq

/-- The results of the run's external effects: the local build process
(`Except` launch error / finished output), the three stderr-checked
remote commands, the two docker-compose invocations, and the two final
closes. -/
structure World where
  buildResult : Except String Output
  mkdirResult : CmdResult
  unzipResult : CmdResult
  composeBuildResult : CmdResult
  composeUpResult : CmdResult
  sessionCloseResult : Except String Unit
  sftpCloseResult : Except String Unit

/-- The activation step of `main`, returning the steps it performs and
the abort, if any.

Entrypoint mode: `host_entrypoint_path = format!("{}/{}",
app.host_path(), entrypoint)` — the full declared entrypoint path (not
its base name) is appended to the host path. If no artifact string
equals the entrypoint, the entrypoint file is read locally and written
to that remote path; then (in both cases) the execute permissions are
set on that remote path.

Orchestration mode: `docker-compose build`, then `docker-compose up
-d`, each via `.output().await.expect(..)`: only a transport failure
aborts; the commands' exit status and stderr are never inspected. -/
def activation (w : World) (app : App) (fs : Fs) : List Step × Option PipelineError :=
  match app.entrypoint with
  | some entrypoint =>
    let host_entrypoint_path := app.host_path ++ "/" ++ entrypoint
    if app.artifacts.any fun a => a = entrypoint then
      ([Step.setPermissions host_entrypoint_path exec_permissions], none)
    else
      match read_file fs entrypoint with
      | none => ([], some (.entrypointReadPanic entrypoint))
      | some content =>
        ([Step.uploadEntrypoint host_entrypoint_path content,
          Step.setPermissions host_entrypoint_path exec_permissions], none)
  | none =>
    match w.composeBuildResult with
    | .transportErr e => ([], some (.composeLaunchPanic "build" e))
    | .ok _ =>
      match w.composeUpResult with
      | .transportErr e => ([Step.composeBuild], some (.composeLaunchPanic "up" e))
      | .ok _ => ([Step.composeBuild, Step.composeUp], none)

/-- Lift an `unwrap_command_stderr` call followed by `.expect(..)` to
a pipeline abort: a command failure (non-empty stderr) aborts with the
named step's `remoteCommandError`, a transport panic or UTF-8 panic
aborts with the corresponding error. -/
def gate_remote_command (which : String) (r : CmdResult) : Option PipelineError :=
  match unwrap_command_stderr r with
  | .ok _ => none
  | .cmdErr s => some (.remoteCommandError which s)
  | .fatalPanic m => some (.transportPanic m)
  | .utf8Panic => some .utf8Panic

/-- The whole of `main` as a function of the external world, the app
descriptor and the local filesystem, returning the ordered trace of
completed steps and the abort, if any (`none` = the process printed
its final success line).

Faithful ordering of the source: the SSH session and the SFTP
subsystem are established first; then `host_output_path` is computed
(its `.unwrap()` can panic); then the build command is tokenised
(`remove(0)` on an empty token vector panics); then the build runs and
a non-empty stderr or a launch failure aborts; then the archive file is
created and the artifact loop runs; then `mkdir -p`, the archive
upload, `unzip`, the activation step, and finally both closes, whose
results are bound to `(_, _)` and discarded. -/
def run_pipeline (w : World) (app : App) (fs : Fs) : List Step × Option PipelineError :=
  let pre := [Step.connect, Step.sftpStart]
  match host_output_path app with
  | none => (pre, some .hostOutputPathPanic)
  | some hop =>
    match split_whitespace app.build_command with
    | [] => (pre, some .emptyBuildCommandPanic)
    | _ :: _ =>
      match w.buildResult with
      | .error e => (pre, some (.buildLaunchError e))
      | .ok out =>
        if out.stderr.length > 0 then
          match decodeUtf8 out.stderr with
          | some s => (pre ++ [Step.runBuild], some (.buildError s))
          | none => (pre ++ [Step.runBuild], some .utf8Panic)
        else
          match packEntries fs app.artifacts with
          | .error e => (pre ++ [Step.runBuild, Step.createArchiveFile], some (.packagingError e))
          | .ok _entries =>
            let t2 := pre ++ [Step.runBuild, Step.createArchiveFile, Step.package]
            match gate_remote_command "mkdir" w.mkdirResult with
            | some e => (t2, some e)
            | none =>
              let t4 := t2 ++ [Step.remoteMkdir, Step.uploadArchive hop]
              match gate_remote_command "unzip" w.unzipResult with
              | some e => (t4, some e)
              | none =>
                let t5 := t4 ++ [Step.remoteUnzip]
                match activation w app fs with
                | (steps, some e) => (t5 ++ steps, some e)
                | (steps, none) =>
                  let _closeResults := (w.sessionCloseResult, w.sftpCloseResult)
                  (t5 ++ steps ++ [Step.closeChannels], none)

/-! ### Concrete fixtures used by witnesses and counterexamples -/

/-- A finished process that wrote nothing and exited 0. -/
def okOut : Output := ⟨0, [], []⟩

/-- The example descriptor of the spec's scenario: `{ name: "svc",
hostPath: "/opt/svc", buildOutputFile: "out.zip", buildCommand:
"true", artifacts: ["bin/server"], entrypoint: "bin/server" }`. -/
def svcApp : App := ⟨"svc", "/opt/svc", "out.zip", "true", ["bin/server"], some "bin/server"⟩

/-- A local filesystem holding the one artifact of `svcApp`. -/
def fsSvc : Fs := [("bin/server", FsNode.file [1])]

/-- A world in which every external effect succeeds silently. -/
def wOk : World := ⟨.ok okOut, .ok okOut, .ok okOut, .ok okOut, .ok okOut, .ok (), .ok ()⟩

/-- Like `wOk` but the file-transfer channel close fails. -/
def wCloseFail : World := ⟨.ok okOut, .ok okOut, .ok okOut, .ok okOut, .ok okOut, .ok (), .error "close failed"⟩

/-- An orchestration-mode descriptor (no entrypoint, no artifacts). -/
def orchApp : App := ⟨"orch", "/opt/orch", "out.zip", "true", [], none⟩

/-- A `docker-compose up -d` invocation that failed as a command: exit
status 1 and stderr `"err"` — but was launched and awaited fine. -/
def upFailOut : Output := ⟨1, [], [101, 114, 114]⟩

/-- Like `wOk` but the `docker-compose up -d` command fails (as a
command, not as a transport error). -/
def wUpFail : World := ⟨.ok okOut, .ok okOut, .ok okOut, .ok okOut, .ok upFailOut, .ok (), .ok ()⟩

/-- A build process that exited 0 but wrote `"boom"` on stderr. -/
def buildBoomOut : Output := ⟨0, [], [98, 111, 111, 109]⟩

/-- Like `wOk` but the build wrote on stderr. -/
def wBuildErr : World := ⟨.ok buildBoomOut, .ok okOut, .ok okOut, .ok okOut, .ok okOut, .ok (), .ok ()⟩

/-- A directory artifact `d` with a direct child file `a` and a direct
child subdirectory `sub` that itself contains a file `x`. -/
def fsDirSub : Fs := [("d", FsNode.dir [("a", FsNode.file [1]), ("sub", FsNode.dir [("x", FsNode.file [2])])])]

/-- A directory artifact `d` whose direct children are both files. -/
def fsDirOk : Fs := [("d", FsNode.dir [("a", FsNode.file [1]), ("b", FsNode.file [2])])]

/-- A descriptor whose build command is one space (whitespace only). -/
def wsApp : App := ⟨"a", "/opt/a", "out.zip", " ", [], none⟩

/-! ### Helper lemmas -/

/-- Tokenising an all-whitespace character list yields no tokens. -/
theorem split_whitespace_aux_all_ws (l : List Char) (h : ∀ c ∈ l, c.isWhitespace) :
    split_whitespace_aux l [] = [] := by
  induction l with
  | nil => rfl
  | cons c cs ih =>
    have hc : c.isWhitespace := h c (List.mem_cons_self c cs)
    simp only [split_whitespace_aux, hc, if_true, List.isEmpty]
    exact ih fun x hx => h x (List.mem_cons_of_mem c hx)

/-- No piece produced by the slash splitter contains a slash. -/
theorem split_slash_aux_no_slash (l : List Char) :
    ∀ acc, (∀ c ∈ acc, c ≠ '/') →
      ∀ piece ∈ split_slash_aux l acc, ∀ c ∈ piece, c ≠ '/' := by
  induction l with
  | nil =>
    intro acc hacc piece hp c hc
    simp only [split_slash_aux, List.mem_singleton] at hp
    subst hp
    exact hacc c (List.mem_reverse.mp hc)
  | cons a as ih =>
    intro acc hacc piece hp
    by_cases ha : a = '/'
    · simp only [split_slash_aux, ha, if_true, List.mem_cons] at hp
      rcases hp with hp | hp
      · subst hp
        intro c hc
        exact hacc c (List.mem_reverse.mp hc)
      · exact ih [] (by intro c hc; cases hc) piece hp
    · simp only [split_slash_aux, ha, if_false] at hp
      refine ih (a :: acc) ?_ piece hp
      intro c hc
      rcases List.mem_cons.mp hc with rfl | hc
      · exact ha
      · exact hacc c hc

/-- A file name extracted by `file_name` contains no slash. -/
theorem file_name_no_slash (s n : String) (h : file_name s = some n) :
    ∀ c ∈ n.data, c ≠ '/' := by
  have hdef : file_name s =
      match ((split_slash s.data).filter fun c => !(c = [] || c = ['.'])).getLast? with
      | none => none
      | some c => if c = ['.', '.'] then none else some c.asString := rfl
  rw [hdef] at h
  rcases hg : ((split_slash s.data).filter fun c => !(c = [] || c = ['.'])).getLast? with _ | c
  · rw [hg] at h
    exact absurd h (by simp)
  · rw [hg] at h
    have h2 : (if c = ['.', '.'] then (none : Option String) else some c.asString) = some n := h
    by_cases hdd : c = ['.', '.']
    · rw [if_pos hdd] at h2
      exact absurd h2 (by simp)
    · rw [if_neg hdd] at h2
      have hn : n = c.asString := (Option.some.injEq _ _).mp h2.symm
      have hmem : c ∈ (split_slash s.data).filter fun c => !(c = [] || c = ['.']) :=
        List.mem_of_getLast?_eq_some hg
      have hc : c ∈ split_slash s.data := (List.mem_filter.mp hmem).1
      have := split_slash_aux_no_slash s.data [] (by intro x hx; cases hx) c hc
      intro ch hch
      exact this ch (by rw [hn] at hch; exact hch)

/-- The directory branch on an all-files child list produces one entry
per child, in order, named by the child name. -/
theorem packDirChildren_all_files (parent : String) (children : List (String × FsNode))
    (h : children.all (fun x => x.2.isFile) = true) :
    packDirChildren parent children = .ok (children.map fun x => (x.1, x.2.contentD)) := by
  induction children with
  | nil => rfl
  | cons hd rest ih =>
    obtain ⟨cname, node⟩ := hd
    rcases node with content | sub
    · simp only [List.all_cons, Bool.and_eq_true] at h
      simp [packDirChildren, ih h.2, FsNode.contentD, Except.map]
    · simp [List.all_cons, FsNode.isFile] at h

/-- The directory branch aborts at the first non-file child, naming the
child path. -/
theorem packDirChildren_dir_child (parent cname : String) (pre post : List (String × FsNode))
    (sub : List (String × FsNode)) (h : pre.all (fun x => x.2.isFile) = true) :
    packDirChildren parent (pre ++ (cname, FsNode.dir sub) :: post) =
      .error (.readArtifact (parent ++ "/" ++ cname)) := by
  induction pre with
  | nil => rfl
  | cons hd rest ih =>
    obtain ⟨n, node⟩ := hd
    rcases node with content | s
    · simp only [List.all_cons, Bool.and_eq_true] at h
      simp [packDirChildren, ih h.2, Except.map]
    · simp [List.all_cons, FsNode.isFile] at h

/-- The activation step never uploads the archive. -/
theorem uploadArchive_not_in_activation (w : World) (app : App) (fs : Fs) (p : String) :
    Step.uploadArchive p ∉ (activation w app fs).1 := by
  unfold activation
  rcases app.entrypoint with _ | ep
  · rcases w.composeBuildResult with _ | e
    · rcases w.composeUpResult with _ | e <;> simp
    · simp
  · by_cases hmem : (app.artifacts.any fun a => a = ep) = true
    · simp [hmem]
    · rcases hrd : read_file fs ep with _ | content <;> simp [hmem, hrd]

/-! ### Claims -/

/-- C1, counterexample: a declared artifact path that does not exist on
the local filesystem does NOT make packaging fail — the path matches
neither the `is_file` nor the `is_dir` branch of the loop and is
silently skipped, and packaging succeeds producing an (empty) archive.
Here `"bin/missing"` is absent from the (empty) filesystem, yet
`packEntries` returns `ok` and no `PackError` at all. -/
theorem missing_artifact_silently_skipped_cex :
    List.lookup "bin/missing" ([] : Fs) = none ∧
    packEntries [] ["bin/missing"] = Except.ok [] ∧
    ∀ e : PackError, packEntries [] ["bin/missing"] ≠ Except.error e := by
  refine ⟨rfl, by decide, ?_⟩
  intro e he
  rw [show packEntries [] ["bin/missing"] = Except.ok [] from by decide] at he
  exact Except.noConfusion he

/-- C1, amended: a declared artifact path that does not exist is
silently skipped — it contributes no archive entries and packaging
continues — provided the path has an extractable base name; a path with
no extractable base name (empty, root-like, or ending in `..`) fails
with an error naming that exact path (the `file_name().expect(..)`
panic), whether or not it exists. -/
theorem missing_artifact_skip (fs : Fs) (p : String) (h : fs.lookup p = none) :
    (∀ n, file_name p = some n → packArtifact fs p = Except.ok []) ∧
    (file_name p = none → packArtifact fs p = Except.error (PackError.artifactPath p)) := by
  constructor
  · intro n hn
    simp [packArtifact, hn, h]
  · intro hn
    simp [packArtifact, hn]

theorem missing_artifact_skip_witness :
    packArtifact [] "bin/missing" = Except.ok [] :=
  (missing_artifact_skip [] "bin/missing" rfl).1 "missing" (by decide)

/-- C2, counterexample: for the spec's example descriptor (entrypoint
`bin/server`, hostPath `/opt/svc`), the permission change is applied to
`/opt/svc/bin/server` — `format!("{}/{}", host_path, entrypoint)` uses
the full entrypoint path — and no permission change on `/opt/svc/server`
ever happens, contrary to the claim. -/
theorem svc_entrypoint_perm_path_cex :
    activation wOk svcApp fsSvc =
      ([Step.setPermissions "/opt/svc/bin/server" exec_permissions], none) ∧
    Step.setPermissions "/opt/svc/server" exec_permissions ∉ (activation wOk svcApp fsSvc).1 := by
  decide

/-- C2, amended: for the example descriptor, entrypoint mode performs
no separate upload (the entrypoint equals the listed artifact) and
applies owner+group execute permission to the remote path
`/opt/svc/bin/server` (hostPath + `/` + the full entrypoint path); the
archive holds the single entry `server` and the pipeline succeeds. -/
theorem svc_entrypoint_activation :
    run_pipeline wOk svcApp fsSvc =
      ([Step.connect, Step.sftpStart, Step.runBuild, Step.createArchiveFile, Step.package,
        Step.remoteMkdir, Step.uploadArchive "/opt/svc/out.zip", Step.remoteUnzip,
        Step.setPermissions "/opt/svc/bin/server" exec_permissions, Step.closeChannels], none) ∧
    packEntries fsSvc svcApp.artifacts = Except.ok [("server", [1])] := by
  decide

/-- C3, counterexample: a failing file-transfer channel close is NOT
observable — `let (_, _) = futures::join!(session.close(), sftp.close())`
discards both results, and the run still reports success. -/
theorem close_failure_unobservable_cex :
    wCloseFail.sftpCloseResult = Except.error "close failed" ∧
    (run_pipeline wCloseFail svcApp fsSvc).2 = none := by
  exact ⟨rfl, by decide⟩

/-- C3, amended: after activation the orchestrator awaits the session
close and the file-transfer channel close jointly (not one then the
other) before reporting success, but binds both results to `(_, _)`:
the run's trace and outcome are entirely independent of either close
result, so a close failure is never observable to the caller; every
successful run does reach the close step. -/
theorem close_results_discarded :
    (∀ b m u cb cu rs rf rs2 rf2 app fs,
      run_pipeline ⟨b, m, u, cb, cu, rs, rf⟩ app fs =
        run_pipeline ⟨b, m, u, cb, cu, rs2, rf2⟩ app fs) ∧
    (∀ w app fs steps, run_pipeline w app fs = (steps, none) → Step.closeChannels ∈ steps) := by
  constructor
  · intro b m u cb cu rs rf rs2 rf2 app fs
    rfl
  · intro w app fs steps h
    unfold run_pipeline at h
    repeat' split at h
    all_goals rw [Prod.ext_iff] at h
    all_goals obtain ⟨h1, h2⟩ := h
    all_goals try exact Option.noConfusion h2
    simp only [List.append_assoc, List.cons_append, List.nil_append] at h1
    rw [← h1]
    simp

theorem close_results_discarded_witness :
    Step.closeChannels ∈
      [Step.connect, Step.sftpStart, Step.runBuild, Step.createArchiveFile, Step.package,
       Step.remoteMkdir, Step.uploadArchive "/opt/svc/out.zip", Step.remoteUnzip,
       Step.setPermissions "/opt/svc/bin/server" exec_permissions, Step.closeChannels] :=
  close_results_discarded.2 wOk svcApp fsSvc _ (by decide)

/-- C4, counterexample: a failing `docker-compose up -d` command (exit
status 1, non-empty stderr, but launched and awaited fine) is NOT
fatal: the orchestration-mode pipeline still completes successfully,
because both compose invocations go through `.output().await.expect(..)`
which never inspects the command's status or stderr. -/
theorem compose_up_failure_not_fatal_cex :
    wUpFail.composeUpResult = CmdResult.ok upFailOut ∧
    upFailOut.stderr ≠ [] ∧ upFailOut.status ≠ 0 ∧
    (run_pipeline wUpFail orchApp []).2 = none := by
  refine ⟨rfl, by decide, by decide, by decide⟩

/-- C4, amended: in orchestration mode the error handling of the two
docker-compose commands is symmetric, not asymmetric: neither the
rebuild's nor the up's remote failure (exit status or stderr, which are
never inspected) aborts the pipeline; for both commands, only a
transport-level failure to launch/await the command is fatal. -/
theorem compose_failure_handling_symmetric (app : App) (fs : Fs)
    (hep : app.entrypoint = none) :
    (∀ b m u rs rf bOut uOut,
      activation ⟨b, m, u, .ok bOut, .ok uOut, rs, rf⟩ app fs =
        ([Step.composeBuild, Step.composeUp], none)) ∧
    (∀ b m u cu rs rf e,
      activation ⟨b, m, u, .transportErr e, cu, rs, rf⟩ app fs =
        ([], some (PipelineError.composeLaunchPanic "build" e))) ∧
    (∀ b m u rs rf bOut e,
      activation ⟨b, m, u, .ok bOut, .transportErr e, rs, rf⟩ app fs =
        ([Step.composeBuild], some (PipelineError.composeLaunchPanic "up" e))) := by
  refine ⟨?_, ?_, ?_⟩ <;> intros <;> simp [activation, hep]

theorem compose_failure_handling_symmetric_witness :
    activation ⟨Except.ok okOut, .ok okOut, .ok okOut, .ok okOut, .ok upFailOut, .ok (), .ok ()⟩
        orchApp [] = ([Step.composeBuild, Step.composeUp], none) :=
  (compose_failure_handling_symmetric orchApp [] rfl).1
    (Except.ok okOut) (.ok okOut) (.ok okOut) (.ok ()) (.ok ()) okOut upFailOut

/-- C5, confirmed: `unwrap_command_stderr` reports a command with
non-empty collected stderr as failed, carrying exactly the UTF-8-decoded
stderr text, regardless of the exit status (the status field is never
consulted); with empty stderr it succeeds returning the decoded stdout;
a transport failure to launch/await the command is a distinct fatal
panic, never a command-failure result. -/
theorem remote_command_stderr_classification (out : Output) (es os : String)
    (hes : decodeUtf8 out.stderr = some es) (hos : decodeUtf8 out.stdout = some os) :
    (out.stderr ≠ [] → unwrap_command_stderr (.ok out) = ExecResult.cmdErr es) ∧
    (out.stderr = [] → unwrap_command_stderr (.ok out) = ExecResult.ok os) ∧
    (∀ msg, unwrap_command_stderr (.transportErr msg) =
        ExecResult.fatalPanic ("Error running command:\n" ++ msg) ∧
      ∀ s, ExecResult.fatalPanic ("Error running command:\n" ++ msg) ≠ ExecResult.cmdErr s) := by
  refine ⟨?_, ?_, ?_⟩
  · intro hne
    have hlen : out.stderr.length > 0 := List.length_pos.mpr hne
    simp [unwrap_command_stderr, hlen, hes]
  · intro he
    simp [unwrap_command_stderr, he, hos]
  · intro msg
    exact ⟨rfl, fun s h => ExecResult.noConfusion h⟩

theorem remote_command_stderr_classification_witness :
    unwrap_command_stderr (.ok ⟨7, [104], [101]⟩) = ExecResult.cmdErr "e" :=
  (remote_command_stderr_classification ⟨7, [104], [101]⟩ "e" "h"
    (by decide) (by decide)).1 (by decide)

/-- C6, confirmed: if the declared entrypoint equals a path listed in
`artifacts` (string equality, as `any(|a| a.eq(entrypoint))` tests),
activation performs no upload and only the permission change; if it
equals no listed artifact path, activation uploads the entrypoint's
local bytes to `host_path ++ "/" ++ entrypoint` (under the remote base
directory) first and applies the permission change second, in that
order. -/
theorem entrypoint_upload_conditional (w : World) (app : App) (fs : Fs) (ep : String)
    (hep : app.entrypoint = some ep) :
    (ep ∈ app.artifacts →
      activation w app fs =
        ([Step.setPermissions (app.host_path ++ "/" ++ ep) exec_permissions], none)) ∧
    (ep ∉ app.artifacts → ∀ content, read_file fs ep = some content →
      activation w app fs =
        ([Step.uploadEntrypoint (app.host_path ++ "/" ++ ep) content,
          Step.setPermissions (app.host_path ++ "/" ++ ep) exec_permissions], none)) := by
  constructor
  · intro hmem
    have hany : (app.artifacts.any fun a => a = ep) = true := by
      simp only [List.any_eq_true, decide_eq_true_eq]
      exact ⟨ep, hmem, rfl⟩
    simp [activation, hep, hany]
  · intro hmem content hread
    have hany : (app.artifacts.any fun a => a = ep) = false := by
      cases hq : app.artifacts.any fun a => a = ep
      · rfl
      · exfalso
        rcases List.any_eq_true.mp hq with ⟨x, hx, hxe⟩
        have hxep : x = ep := of_decide_eq_true hxe
        exact hmem (hxep ▸ hx)
    simp [activation, hep, hany, hread]

theorem entrypoint_upload_conditional_witness :
    activation wOk svcApp fsSvc =
      ([Step.setPermissions (svcApp.host_path ++ "/" ++ "bin/server") exec_permissions], none) :=
  (entrypoint_upload_conditional wOk svcApp fsSvc "bin/server" rfl).1 (by decide)

/-- C7, counterexample: a non-file direct child of a directory artifact
does NOT merely "contribute no entry": the loop calls
`read(entry.path())` on every `read_dir` entry, so a direct child
subdirectory makes packaging abort with an artifact-read error naming
the child path (here `d/sub`), and packaging does not succeed at all. -/
theorem dir_child_subdir_aborts_cex :
    packEntries fsDirSub ["d"] = Except.error (PackError.readArtifact "d/sub") ∧
    ∀ entries, packEntries fsDirSub ["d"] ≠ Except.ok entries := by
  refine ⟨by decide, ?_⟩
  intro entries h
  rw [show packEntries fsDirSub ["d"] = Except.error (PackError.readArtifact "d/sub") from
    by decide] at h
  exact Except.noConfusion h

/-- C7, amended: for a directory artifact whose direct children are all
regular files, the archive receives exactly one entry per direct child,
named by the child's base name and carrying its bytes, in directory
order — files nested inside sub-subdirectories are never descended
into; but a non-file direct child (the first one, after any file
children) makes packaging fail with an artifact-read error naming that
child's path, rather than contributing no entry. -/
theorem dir_artifact_direct_children (fs : Fs) (p n : String)
    (children : List (String × FsNode))
    (hn : file_name p = some n) (hl : fs.lookup p = some (.dir children)) :
    (children.all (fun x => x.2.isFile) = true →
      packArtifact fs p = Except.ok (children.map fun x => (x.1, x.2.contentD))) ∧
    (∀ pre cname sub post, children = pre ++ (cname, FsNode.dir sub) :: post →
      pre.all (fun x => x.2.isFile) = true →
      packArtifact fs p = Except.error (PackError.readArtifact (p ++ "/" ++ cname))) := by
  constructor
  · intro hall
    simp [packArtifact, hn, hl, packDirChildren_all_files p children hall]
  · intro pre cname sub post hch hall
    simp [packArtifact, hn, hl, hch, packDirChildren_dir_child p cname pre post sub hall]

theorem dir_artifact_direct_children_witness :
    packArtifact fsDirOk "d" = Except.ok [("a", [1]), ("b", [2])] :=
  (dir_artifact_direct_children fsDirOk "d" "d"
    [("a", FsNode.file [1]), ("b", FsNode.file [2])] (by decide) rfl).1 (by decide)

/-- C8, counterexample: when the build writes on stderr the pipeline
does abort, but NOT "before any network step": the SSH session
(`Step.connect`) and the SFTP subsystem are established before the
build even runs, so they appear in the trace of the aborted run. The
build here exited with status 0, confirming the abort happens even on a
conventionally successful exit. -/
theorem build_error_after_connect_cex :
    run_pipeline wBuildErr svcApp fsSvc =
      ([Step.connect, Step.sftpStart, Step.runBuild], some (PipelineError.buildError "boom")) ∧
    Step.connect ∈ (run_pipeline wBuildErr svcApp fsSvc).1 ∧
    buildBoomOut.status = 0 := by
  decide

/-- C8, amended: if the build process's captured stderr is non-empty
the pipeline aborts — regardless of exit status — before any packaging,
upload, or remote-command step (the trace holds only the session/SFTP
establishment, which the program performs before the build, plus the
build itself); failure to launch the build process aborts too, with the
distinct `buildLaunchError`. -/
theorem build_stderr_aborts_before_packaging (w : World) (app : App) (fs : Fs) (n : String)
    (out : Output) (s : String)
    (hn : file_name app.build_output_file = some n)
    (ht : split_whitespace app.build_command ≠ [])
    (hb : w.buildResult = Except.ok out)
    (hse : out.stderr ≠ [])
    (hdec : decodeUtf8 out.stderr = some s) :
    run_pipeline w app fs =
      ([Step.connect, Step.sftpStart, Step.runBuild], some (PipelineError.buildError s)) ∧
    ∀ e m u cb cu rs rf,
      run_pipeline ⟨Except.error e, m, u, cb, cu, rs, rf⟩ app fs =
        ([Step.connect, Step.sftpStart], some (PipelineError.buildLaunchError e)) := by
  have hhop : host_output_path app = some (app.host_path ++ "/" ++ n) := by
    simp [host_output_path, hn]
  obtain ⟨t, ts, hts⟩ : ∃ t ts, split_whitespace app.build_command = t :: ts := by
    rcases hq : split_whitespace app.build_command with _ | ⟨t, ts⟩
    · exact absurd hq ht
    · exact ⟨t, ts, rfl⟩
  have hlen : out.stderr.length > 0 := List.length_pos.mpr hse
  constructor
  · simp [run_pipeline, hhop, hts, hb, hlen, hdec]
  · intro e m u cb cu rs rf
    simp [run_pipeline, hhop, hts]

theorem build_stderr_aborts_before_packaging_witness :
    run_pipeline wBuildErr svcApp fsSvc =
      ([Step.connect, Step.sftpStart, Step.runBuild], some (PipelineError.buildError "boom")) :=
  (build_stderr_aborts_before_packaging wBuildErr svcApp fsSvc "out.zip" buildBoomOut "boom"
    (by decide) (by decide) rfl (by decide) (by decide)).1

/-- C9, confirmed: whenever a run uploads the archive, the remote
destination is exactly `host_path ++ "/" ++ n` where `n` is the base
name of `buildOutputFile` (`Path::file_name`), and `n` contains no
slash — so directory components of `buildOutputFile` never appear in
the remote archive path. -/
theorem archive_upload_path (w : World) (app : App) (fs : Fs) (p n : String)
    (hn : file_name app.build_output_file = some n)
    (hmem : Step.uploadArchive p ∈ (run_pipeline w app fs).1) :
    p = app.host_path ++ "/" ++ n ∧ ∀ c ∈ n.data, c ≠ '/' := by
  have hhop : host_output_path app = some (app.host_path ++ "/" ++ n) := by
    simp [host_output_path, hn]
  refine ⟨?_, file_name_no_slash app.build_output_file n hn⟩
  unfold run_pipeline at hmem
  simp only [hhop] at hmem
  rcases hts : split_whitespace app.build_command with _ | ⟨t, ts⟩ <;>
    simp only [hts] at hmem
  · simp at hmem
  rcases hb : w.buildResult with e | out <;> simp only [hb] at hmem
  · simp at hmem
  by_cases hlen : out.stderr.length > 0
  · simp only [hlen, if_true] at hmem
    rcases hdec : decodeUtf8 out.stderr with _ | s <;> simp [hdec] at hmem
  · simp only [hlen, if_false] at hmem
    rcases hpk : packEntries fs app.artifacts with e | entries <;> simp only [hpk] at hmem
    · simp at hmem
    rcases hmk : gate_remote_command "mkdir" w.mkdirResult with _ | e <;>
      simp only [hmk] at hmem
    swap
    · simp at hmem
    rcases huz : gate_remote_command "unzip" w.unzipResult with _ | e <;>
      simp only [huz] at hmem
    swap
    · simp at hmem
      exact hmem
    rcases hact : activation w app fs with ⟨steps, err⟩
    simp only [hact] at hmem
    have hnotact : Step.uploadArchive p ∉ steps := by
      have hno := uploadArchive_not_in_activation w app fs p
      rw [hact] at hno
      exact hno
    rcases err with _ | e <;> simp at hmem <;>
      rcases hmem with hmem | hmem
    · exact hmem
    · exact absurd hmem hnotact
    · exact hmem
    · exact absurd hmem hnotact

theorem archive_upload_path_witness :
    "/opt/svc/out.zip" = svcApp.host_path ++ "/" ++ "out.zip" ∧
    ∀ c ∈ ("out.zip" : String).data, c ≠ '/' :=
  archive_upload_path wOk svcApp fsSvc "/opt/svc/out.zip" "out.zip" (by decide) (by decide)

/-- C10, confirmed: a buildCommand that is empty or all whitespace
tokenises (by `split_whitespace`) to an empty token vector, so
`remove(0)` panics and the pipeline aborts before running any build
process, packaging, upload, or remote command — the trace holds only
the session/SFTP establishment. -/
theorem empty_build_command_aborts (w : World) (app : App) (fs : Fs) (n : String)
    (hn : file_name app.build_output_file = some n)
    (hws : ∀ c ∈ app.build_command.data, c.isWhitespace) :
    split_whitespace app.build_command = [] ∧
    run_pipeline w app fs =
      ([Step.connect, Step.sftpStart], some PipelineError.emptyBuildCommandPanic) := by
  have htok : split_whitespace app.build_command = [] :=
    split_whitespace_aux_all_ws app.build_command.data hws
  have hhop : host_output_path app = some (app.host_path ++ "/" ++ n) := by
    simp [host_output_path, hn]
  exact ⟨htok, by simp [run_pipeline, hhop, htok]⟩

theorem empty_build_command_aborts_witness :
    run_pipeline wOk wsApp [] =
      ([Step.connect, Step.sftpStart], some PipelineError.emptyBuildCommandPanic) :=
  (empty_build_command_aborts wOk wsApp [] "out.zip" (by decide) (by decide)).2

end Ec2Deploy
